import Mathlib

/-!
Verification development for the PLDM host-PDR subsystem (OpenBMC `pldm`,
files `src/host-bmc/host_pdr_handler.hpp` and the `LicenseHandler` header).

The repository ships headers: the `SensorEntry` comparison operators, the
inline body of `HostPDRHandler::lookupSensorInfo`, and the inline
`LicenseHandler` method bodies are embedded directly from the source.
Method bodies that are declared but not present under the source tree
(`mergeEntityAssociations`, `processHostPDRs`, `fetchPDR`,
`handleStateSensorEvent`, `parseStateSensorPDRs`) are modelled from the
specification; each such definition carries a doc comment starting with
"Modelled from the spec:".

Machine integers (uint8/uint16/uint32) are embedded as `Nat`: the code
only compares and copies them, so no overflow behaviour is observable.
C++ exceptions are embedded as the `Except` error branch; a function
returning a plain (non-`Except`) value embeds code that cannot throw.
-/

set_option maxHeartbeats 1000000
set_option linter.unusedVariables false

namespace Pldm

/-- Embeds `struct SensorEntry` (host_pdr_handler.hpp lines 38-53):
fields `terminusID` (pdr::TerminusID) and `sensorID` (pdr::SensorID). -/
structure SensorEntry where
  terminusID : Nat
  sensorID : Nat
deriving DecidableEq

/-- Embeds `SensorEntry::operator==`:
`(terminusID == e.terminusID) && (sensorID == e.sensorID)`. -/
def SensorEntry.eqOp (a e : SensorEntry) : Bool :=
  (a.terminusID == e.terminusID) && (a.sensorID == e.sensorID)

/-- Embeds `SensorEntry::operator<`:
`(terminusID < e.terminusID) || ((terminusID == e.terminusID) && (sensorID < e.sensorID))`. -/
def SensorEntry.ltOp (a e : SensorEntry) : Bool :=
  decide (a.terminusID < e.terminusID) ||
    ((a.terminusID == e.terminusID) && decide (a.sensorID < e.sensorID))

/-- Opaque payload standing for `pdr::SensorInfo` (defined in
`common/types.hpp`, outside the shipped sources): entity identity, D-Bus
object path and composite-sensor metadata. Only stored and compared by the
claims, so it is embedded as an abstract numeric payload. -/
abbrev SensorInfo := Nat

/-- PLDM completion code `PLDM_SUCCESS` (libpldm `base.h`, value 0x00). -/
def PLDM_SUCCESS : Nat := 0

/-- PLDM completion code `PLDM_ERROR_UNSUPPORTED_PLDM_CMD` (libpldm
`base.h`, DSP0240 value 0x05). -/
def PLDM_ERROR_UNSUPPORTED_PLDM_CMD : Nat := 5

/-- PLDM platform completion code for "sensor not found"
(`PLDM_PLATFORM_INVALID_SENSOR_ID`, DSP0248 value 0x80); libpldm is
outside the shipped sources, the value is taken from the PLDM platform
specification. -/
def PLDM_PLATFORM_INVALID_SENSOR_ID : Nat := 128

/-- A thrown C++ exception, embedded as an `Except` error value. -/
inductive CppException where
  | stdOutOfRange
deriving DecidableEq

/-- Association list embedding of `std::map<SensorEntry, SensorInfo>`
(`HostStateSensorMap`). Keys are unique; `mapInsert` keeps them unique. -/
abbrev HostStateSensorMap := List (SensorEntry × SensorInfo)

/-- Key lookup in the map: the value at the first (hence only) matching
key, as `std::map::find`. -/
def mapFind (m : HostStateSensorMap) (k : SensorEntry) : Option SensorInfo :=
  match m with
  | [] => none
  | (k0, v0) :: rest => if SensorEntry.eqOp k0 k then some v0 else mapFind rest k

/-- Insert-or-assign on the map (`std::map::operator[] = v`): replaces the
value at an existing equal key, otherwise appends the new pair. -/
def mapInsert (m : HostStateSensorMap) (k : SensorEntry) (v : SensorInfo) :
    HostStateSensorMap :=
  match m with
  | [] => [(k, v)]
  | (k0, v0) :: rest =>
    if SensorEntry.eqOp k0 k then (k0, v) :: rest
    else (k0, v0) :: mapInsert rest k v

/-- Embeds `std::map::at`: the mapped value when the key is present, and a
thrown `std::out_of_range` otherwise. -/
def mapAt (m : HostStateSensorMap) (k : SensorEntry) :
    Except CppException SensorInfo :=
  match mapFind m k with
  | some v => Except.ok v
  | none => Except.error CppException.stdOutOfRange

/-- The sensor-lookup part of `HostPDRHandler`'s state: the `sensorMap`
member, plus the D-Bus-visible present-state updates published so far
(each recorded as the `SensorInfo` whose path was updated together with
the new event state). -/
structure SensorIndexState where
  sensorMap : HostStateSensorMap
  published : List (SensorInfo × Nat)
deriving DecidableEq

/-- Embeds `HostPDRHandler::lookupSensorInfo` (host_pdr_handler.hpp lines
135-138): `return sensorMap.at(entry);`. -/
def lookupSensorInfo (s : SensorIndexState) (entry : SensorEntry) :
    Except CppException SensorInfo :=
  mapAt s.sensorMap entry

/-- Modelled from the spec: the body of
`HostPDRHandler::handleStateSensorEvent` is not under the shipped sources
(only its declaration, lines 147-149). Spec 4.3: "Looks up the SensorEntry
in the index; fails with a \"sensor not found\" code if absent (propagated
to the PLDM command response, not thrown); on success, updates
D-Bus-visible present-state for the path associated with that
sensor/offset." Totality of this Lean function embeds "never throws". -/
def handleStateSensorEvent (s : SensorIndexState) (entry : SensorEntry)
    (state : Nat) : Nat × SensorIndexState :=
  match mapFind s.sensorMap entry with
  | none => (PLDM_PLATFORM_INVALID_SENSOR_ID, s)
  | some info =>
    (PLDM_SUCCESS, { s with published := (info, state) :: s.published })

/-- One decoded host state-sensor PDR, as consumed by
`parseStateSensorPDRs`: the terminus handle it references, the sensor ID,
and the decoded `SensorInfo` payload. -/
structure StateSensorPDR where
  terminusHandle : Nat
  sensorID : Nat
  info : SensorInfo
deriving DecidableEq

/-- Association-list embedding of `TLPDRMap`
(`std::map<pdr::TerminusHandle, pdr::TerminusID>`). -/
abbrev TLPDRMap := List (Nat × Nat)

/-- Lookup of a terminus handle in the terminus-locator map. -/
def tlLookup (m : TLPDRMap) (h : Nat) : Option Nat :=
  match m with
  | [] => none
  | (h0, t0) :: rest => if h0 == h then some t0 else tlLookup rest h

/-- The `SensorEntry` key a state-sensor PDR produces, when its terminus
handle resolves through the terminus-locator map. -/
def resolvedKey (tl : TLPDRMap) (p : StateSensorPDR) : Option SensorEntry :=
  match tlLookup tl p.terminusHandle with
  | some tid => some ⟨tid, p.sensorID⟩
  | none => none

/-- Modelled from the spec: the body of
`HostPDRHandler::parseStateSensorPDRs` is not under the shipped sources
(only its declaration, lines 158-159). Spec 4.3: "for each decoded
state-sensor PDR, resolve terminusHandle → terminusID via the supplied
terminus-locator map; construct a SensorEntry (terminusID, sensorID);
store a SensorInfo. Unresolvable terminus handles skip that PDR only";
spec 3: "last-write-wins if a duplicate key is parsed twice". -/
def parseStateSensorPDRs (s : SensorIndexState)
    (stateSensorPDRs : List StateSensorPDR) (tlpdrInfo : TLPDRMap) :
    SensorIndexState :=
  stateSensorPDRs.foldl
    (fun st p =>
      match resolvedKey tlpdrInfo p with
      | some key => { st with sensorMap := mapInsert st.sensorMap key p.info }
      | none => st)
    s

/-- Embeds the data members of `class LicenseHandler` (unnamed source
file, lines 17-80): the `fileHandle` inherited from `FileHandler` and the
`licType` member. -/
structure LicenseHandler where
  fileHandle : Nat
  licType : Nat
deriving DecidableEq

/-- Embeds `LicenseHandler::writeFromMemory` (body:
`return PLDM_ERROR_UNSUPPORTED_PLDM_CMD;`); all parameters, including the
OEM platform handler pointer, are ignored by the body. The result pairs
the returned completion code with the (unchanged) object state. -/
def LicenseHandler.writeFromMemory (h : LicenseHandler) (offset length address : Nat)
    (oemPlatformHandler : Option Nat) : Nat × LicenseHandler :=
  (PLDM_ERROR_UNSUPPORTED_PLDM_CMD, h)

/-- Embeds `LicenseHandler::readIntoMemory` (body:
`return PLDM_ERROR_UNSUPPORTED_PLDM_CMD;`). `length` is passed by
reference in C++ and never written, so the result carries it back
unchanged next to the completion code and the object state. -/
def LicenseHandler.readIntoMemory (h : LicenseHandler) (offset length address : Nat)
    (oemPlatformHandler : Option Nat) : Nat × Nat × LicenseHandler :=
  (PLDM_ERROR_UNSUPPORTED_PLDM_CMD, length, h)

/-- Embeds `LicenseHandler::write` (body:
`return PLDM_ERROR_UNSUPPORTED_PLDM_CMD;`); the buffer and the
by-reference `length` are never touched. -/
def LicenseHandler.write (h : LicenseHandler) (buffer : List Nat) (offset length : Nat)
    (oemPlatformHandler : Option Nat) : Nat × Nat × LicenseHandler :=
  (PLDM_ERROR_UNSUPPORTED_PLDM_CMD, length, h)

/-- Embeds `LicenseHandler::fileAck` (body:
`return PLDM_ERROR_UNSUPPORTED_PLDM_CMD;`). -/
def LicenseHandler.fileAck (h : LicenseHandler) (fileStatus : Nat) : Nat × LicenseHandler :=
  (PLDM_ERROR_UNSUPPORTED_PLDM_CMD, h)

/-- Embeds `LicenseHandler::newFileAvailable` (body:
`return PLDM_ERROR_UNSUPPORTED_PLDM_CMD;`). -/
def LicenseHandler.newFileAvailable (h : LicenseHandler) (length : Nat) :
    Nat × LicenseHandler :=
  (PLDM_ERROR_UNSUPPORTED_PLDM_CMD, h)

/-- Phase of the PDR fetch state machine, spec 4.4: "States: Idle →
AwaitingGetPDRResponse → (ProcessingBatch → AwaitingGetPDRResponse)* →
MergeComplete → AwaitingChangeEventAck → Idle". -/
inductive FetchPhase where
  | idle
  | awaitingGetPDRResponse
  | processingBatch
  | mergeComplete
  | awaitingChangeEventAck
deriving DecidableEq

/-- A callback deferred onto the sdeventplus event loop, standing for the
`pdrFetchEvent`, `deferredFetchPDREvent` and `deferredPDRRepoChgEvent`
members of `HostPDRHandler`. -/
inductive DeferredAction where
  | fetchEvent
  | fetchPDREvent (nextRecordHandle : Nat)
  | pdrRepoChgEvent
deriving DecidableEq

/-- Modelled from the spec: the fetch-state-machine slice of
`HostPDRHandler`'s state (the bodies of `fetchPDR`, `getHostPDR`,
`processHostPDRs`, `_processFetchPDREvent` and `_processPDRRepoChgEvent`
are not under the shipped sources, only their declarations).
`outstandingRequests` counts in-flight GetPDR requests,
`pdrRecordHandles` is the member of the same name (the queue of host
record handles to fetch), `changedRecordHandles` accumulates the handles
for the repository-changed event, and `deferred` is the queue of
callbacks scheduled on the event loop. -/
structure FetchState where
  phase : FetchPhase
  outstandingRequests : Nat
  pdrRecordHandles : List Nat
  changedRecordHandles : List Nat
  deferred : List DeferredAction
deriving DecidableEq

/-- Modelled from the spec: `HostPDRHandler::getHostPDR` (declaration at
lines 168-173). Spec 4.4: "issues an asynchronous GetPDR request for the
given record handle (0 means from the start)"; per spec 3, a zero handle
with a non-empty `pdrRecordHandles` queue consumes the queue front. -/
def getHostPDR (s : FetchState) (nextRecordHandle : Nat) : FetchState :=
  if nextRecordHandle == 0 then
    match s.pdrRecordHandles with
    | [] => { s with phase := FetchPhase.awaitingGetPDRResponse,
                     outstandingRequests := s.outstandingRequests + 1 }
    | _ :: rest =>
      { s with phase := FetchPhase.awaitingGetPDRResponse,
               outstandingRequests := s.outstandingRequests + 1,
               pdrRecordHandles := rest }
  else
    { s with phase := FetchPhase.awaitingGetPDRResponse,
             outstandingRequests := s.outstandingRequests + 1 }

/-- Modelled from the spec: `HostPDRHandler::fetchPDR` (declaration at
lines 112-117). Spec 4.4: "Re-entrancy guard: a fetch already in
AwaitingGetPDRResponse/ProcessingBatch ignores a concurrent fetchPDR
trigger"; otherwise the record handles are stored and the initial fetch
is deferred onto the event loop (`pdrFetchEvent` → `_fetchPDR`). -/
def fetchPDR (s : FetchState) (recordHandles : List Nat) : FetchState :=
  if s.phase = FetchPhase.awaitingGetPDRResponse ∨ s.phase = FetchPhase.processingBatch
  then s
  else
    { s with phase := FetchPhase.awaitingGetPDRResponse,
             pdrRecordHandles := recordHandles,
             deferred := s.deferred ++ [DeferredAction.fetchEvent] }

/-- A decoded GetPDR response as consumed by `processHostPDRs`: the handle
of the record carried in the response and the decoded `nextRecordHandle`
(0 is the sentinel for "no more records"). The record payload itself is
routed to the merger/classifier and does not affect the fetch control
flow. -/
structure GetPDRResponse where
  recordHandle : Nat
  nextRecordHandle : Nat
deriving DecidableEq

/-- Modelled from the spec: `HostPDRHandler::processHostPDRs` (declaration
at lines 205-211). Spec 4.4: the record handle is appended to the tracked
changed-handles queue; "If nextRecordHandle == 0 (sentinel for no more
records), the cycle transitions to MergeComplete; otherwise schedule the
next getHostPDR(nextRecordHandle) via the deferred-event mechanism (never
a direct recursive call)". The arrived response retires the outstanding
request; no new request is issued here, only a deferred callback is
queued. -/
def processHostPDRs (s : FetchState) (resp : GetPDRResponse) : FetchState :=
  let s0 := { s with outstandingRequests := s.outstandingRequests - 1,
                     changedRecordHandles := s.changedRecordHandles ++ [resp.recordHandle] }
  if resp.nextRecordHandle == 0 then
    { s0 with phase := FetchPhase.mergeComplete,
              deferred := s0.deferred ++ [DeferredAction.pdrRepoChgEvent] }
  else
    { s0 with phase := FetchPhase.awaitingGetPDRResponse,
              deferred := s0.deferred ++ [DeferredAction.fetchPDREvent resp.nextRecordHandle] }

/-- Modelled from the spec: `HostPDRHandler::_processFetchPDREvent`
(declaration at lines 218-223): "fetch the next PDR based on the record
handle sent by Host" — runs on the event loop and issues the next
GetPDR request. -/
def _processFetchPDREvent (s : FetchState) (nextRecordHandle : Nat) : FetchState :=
  getHostPDR s nextRecordHandle

/-- Modelled from the spec: `HostPDRHandler::_processPDRRepoChgEvent`
(declaration at lines 213-216): sends the repository-changed event with
the accumulated handles (fire and forget) and returns the machine to
idle, spec 4.4 "MergeComplete → Change-Notification → Idle". -/
def _processPDRRepoChgEvent (s : FetchState) : FetchState :=
  { s with phase := FetchPhase.idle, changedRecordHandles := [] }

/-- One step of the event loop: run the front deferred callback, if any. -/
def runDeferred (s : FetchState) : FetchState :=
  match s.deferred with
  | [] => s
  | DeferredAction.fetchEvent :: rest =>
    getHostPDR { s with deferred := rest } 0
  | DeferredAction.fetchPDREvent h :: rest =>
    _processFetchPDREvent { s with deferred := rest } h
  | DeferredAction.pdrRepoChgEvent :: rest =>
    _processPDRRepoChgEvent { s with deferred := rest }

/-- Embeds `pldm_entity` as used by the entity-association data model,
spec 3: "(entityType, entityInstanceNumber, containerId) — a node in an
association tree. Identity is by type+instance within its container". -/
structure PldmEntity where
  entityType : Nat
  entityInstanceNumber : Nat
  containerId : Nat
deriving DecidableEq

/-- One decoded entity-association PDR, spec 3: "container type
(logical/physical), container entity, ordered list of child entities". -/
structure EntityAssociationPDR where
  associationType : Nat
  container : PldmEntity
  children : List PldmEntity
deriving DecidableEq

/-- The BMC entity-association tree, spec 3: a forest of entity nodes;
`nodes` lists every entity in the tree, `edges` lists (child, parent)
links. -/
structure EntityAssociationTree where
  nodes : List PldmEntity
  edges : List (PldmEntity × PldmEntity)
deriving DecidableEq

/-- The container IDs present in the tree, one per node. -/
def treeCids (t : EntityAssociationTree) : List Nat :=
  t.nodes.map PldmEntity.containerId

/-- Largest container ID present in the tree (0 when empty). -/
def treeMaxContainerId (t : EntityAssociationTree) : Nat :=
  (treeCids t).foldr max 0

/-- Finds a node of the tree by the entity's type+instance identity
(spec 4.1 step 2: "find the parent entity in the already-merged tree (by
entity type/instance identity)"). -/
def treeFind (t : EntityAssociationTree) (e : PldmEntity) : Option PldmEntity :=
  t.nodes.find? (fun n =>
    n.entityType == e.entityType &&
      n.entityInstanceNumber == e.entityInstanceNumber)

/-- Whether the node occurs as a child in some edge (a non-root node). -/
def isChildNode (t : EntityAssociationTree) (n : PldmEntity) : Bool :=
  t.edges.any (fun pr => pr.1 == n)

/-- Finds a top-level (root) node of the given entity type, spec 4.1
step 1: "locate ... the appropriate top-level parent node in the BMC tree
matching the container entity's type". -/
def findTopLevelByType (t : EntityAssociationTree) (ty : Nat) : Option PldmEntity :=
  t.nodes.find? (fun n => n.entityType == ty && !(isChildNode t n))

/-- Result of inserting a child group: the grown tree, the container ID
assigned to the group, and the inserted nodes. -/
structure AddResult where
  tree : EntityAssociationTree
  cid : Nat
  placed : List PldmEntity
deriving DecidableEq

/-- Modelled from the spec: inserting a child group under a resolved
parent, spec 4.1 step 3: "Insert all child entities as children of the
resolved parent, assigning a fresh unique container ID for this child
group (never reusing a container ID already present in the BMC tree)".
The fresh ID is one past the largest ID in the tree, hence never a reuse. -/
def addChildGroup (t : EntityAssociationTree) (parent : PldmEntity)
    (children : List PldmEntity) : AddResult :=
  let cid := treeMaxContainerId t + 1
  let placed := children.map (fun c => { c with containerId := cid })
  { tree := { nodes := t.nodes ++ placed,
              edges := t.edges ++ placed.map (fun c => (c, parent)) },
    cid := cid,
    placed := placed }

/-- The merge-related slice of `HostPDRHandler`'s state: the BMC
entity-association tree (`entityTree`/`bmcEntityTree` collaborators), the
`parents` member (`std::map<EntityType, pldm_entity>`, as an association
list), the `mergedHostParents` flag (header lines 319-322), and the
`entityAssociations` member (newly inserted groups keyed by the synthetic
association name, modelled as the group's container ID). -/
structure MergeState where
  tree : EntityAssociationTree
  parents : List (Nat × PldmEntity)
  mergedHostParents : Bool
  entityAssociations : List (Nat × List PldmEntity)
deriving DecidableEq

/-- Lookup of an entity type in the `parents` map. -/
def parentsLookup (m : List (Nat × PldmEntity)) (ty : Nat) : Option PldmEntity :=
  match m with
  | [] => none
  | (t0, e0) :: rest => if t0 == ty then some e0 else parentsLookup rest ty

/-- Which branch of the merge algorithm a PDR took (spec 4.1 steps 1-5):
`emptyChildList` — step 5 first sentence, no-op; `firstLocated` /
`firstCreated` — step 1 on the first PDR of the cycle, anchor located in
(resp. created at the top level of) the BMC tree; `containerFound` —
step 2, the PDR's container resolved in the already-merged tree;
`fallbackAttach` — step 2 fallback, the container inserted as a new child
under the established top-level parent; `skipped` — step 5 second
sentence, no known parent, record skipped. -/
inductive MergeBranch where
  | emptyChildList
  | firstLocated
  | firstCreated
  | containerFound
  | fallbackAttach
  | skipped
deriving DecidableEq

/-- Log of one merge call: the branch taken, the PDR's child-list length,
and the container IDs assigned to newly inserted child groups. -/
structure MergeLog where
  branch : MergeBranch
  childCount : Nat
  assignedCids : List Nat
deriving DecidableEq

/-- Modelled from the spec: the body of
`HostPDRHandler::mergeEntityAssociations` is not under the shipped
sources (only its declaration, host_pdr_handler.hpp lines 198-203).
Algorithm per spec 4.1: an empty child list is a no-op (step 5); the
first PDR of the cycle locates (or creates) a top-level parent of the
container's type, records it in the type→parent map and inserts the
children under it (step 1); later PDRs resolve their container in the
already-merged tree by type/instance and insert the children under it
(steps 2-3), falling back to inserting the container itself as a new
child under the previously established top-level parent (with the
children then inserted under the container); a container matching no
known parent is skipped (step 5). Each inserted child group receives a
fresh container ID via `addChildGroup`; the inserted groups are recorded
in `entityAssociations` (step 4). The merge also returns a `MergeLog`
describing the branch taken. -/
def mergeEntityAssociationsLog (s : MergeState) (p : EntityAssociationPDR) :
    MergeState × MergeLog :=
  if p.children.isEmpty then
    (s, { branch := MergeBranch.emptyChildList, childCount := 0, assignedCids := [] })
  else if s.mergedHostParents = false then
    match findTopLevelByType s.tree p.container.entityType with
    | some anchor =>
      let r := addChildGroup s.tree anchor p.children
      ({ tree := r.tree,
         parents := (p.container.entityType, anchor) :: s.parents,
         mergedHostParents := true,
         entityAssociations := (r.cid, r.placed) :: s.entityAssociations },
       { branch := MergeBranch.firstLocated, childCount := p.children.length,
         assignedCids := [r.cid] })
    | none =>
      let anchor : PldmEntity :=
        { entityType := p.container.entityType,
          entityInstanceNumber := p.container.entityInstanceNumber,
          containerId := 0 }
      let t0 : EntityAssociationTree :=
        { nodes := s.tree.nodes ++ [anchor], edges := s.tree.edges }
      let r := addChildGroup t0 anchor p.children
      ({ tree := r.tree,
         parents := (p.container.entityType, anchor) :: s.parents,
         mergedHostParents := true,
         entityAssociations := (r.cid, r.placed) :: s.entityAssociations },
       { branch := MergeBranch.firstCreated, childCount := p.children.length,
         assignedCids := [r.cid] })
  else
    match treeFind s.tree p.container with
    | some parentNode =>
      let r := addChildGroup s.tree parentNode p.children
      ({ s with tree := r.tree,
                entityAssociations := (r.cid, r.placed) :: s.entityAssociations },
       { branch := MergeBranch.containerFound, childCount := p.children.length,
         assignedCids := [r.cid] })
    | none =>
      match parentsLookup s.parents p.container.entityType with
      | some anchor =>
        let r1 := addChildGroup s.tree anchor [p.container]
        let containerNode : PldmEntity := { p.container with containerId := r1.cid }
        let r2 := addChildGroup r1.tree containerNode p.children
        ({ s with tree := r2.tree,
                  entityAssociations :=
                    (r2.cid, r2.placed) :: (r1.cid, r1.placed) :: s.entityAssociations },
         { branch := MergeBranch.fallbackAttach, childCount := p.children.length,
           assignedCids := [r1.cid, r2.cid] })
      | none =>
        (s, { branch := MergeBranch.skipped, childCount := p.children.length,
              assignedCids := [] })

/-- The merge operation itself, dropping the log. -/
def mergeEntityAssociations (s : MergeState) (p : EntityAssociationPDR) : MergeState :=
  (mergeEntityAssociationsLog s p).1

/-- All entity-association PDRs of one fetch cycle merged in order,
collecting the per-PDR logs. -/
def mergeAllLog (s : MergeState) (ps : List EntityAssociationPDR) :
    MergeState × List MergeLog :=
  match ps with
  | [] => (s, [])
  | p :: rest =>
    let r := mergeEntityAssociationsLog s p
    let rr := mergeAllLog r.1 rest
    (rr.1, r.2 :: rr.2)

/-- The container IDs assigned across a sequence of merge logs, in
order. -/
def assignedCidsOf (logs : List MergeLog) : List Nat :=
  logs.foldr (fun l acc => l.assignedCids ++ acc) []

/-- Entities a merge log says were inserted for its PDR: the child-list
length for a PDR whose container resolved (directly, or as the located
first-PDR anchor), one more than that when the fallback also inserted the
container node or the first PDR created its top-level anchor, and zero
for skipped or empty-child-list PDRs. -/
def mergeAddedCount (l : MergeLog) : Nat :=
  match l.branch with
  | MergeBranch.emptyChildList => 0
  | MergeBranch.skipped => 0
  | MergeBranch.firstLocated => l.childCount
  | MergeBranch.containerFound => l.childCount
  | MergeBranch.firstCreated => l.childCount + 1
  | MergeBranch.fallbackAttach => l.childCount + 1

/-- Stated from the spec's testable property (spec 8), for comparison
with the merge algorithm: "the sum of child-list lengths across all
merged PDRs with resolvable parents" — the PDRs whose container entity
resolved to a parent already in the tree. -/
def claimResolvedSum (logs : List MergeLog) : Nat :=
  (logs.filter (fun l =>
      (l.branch == MergeBranch.containerFound) ||
        (l.branch == MergeBranch.firstLocated))).foldr
    (fun l a => l.childCount + a) 0

end Pldm

namespace Pldm

/-! ## Helper lemmas -/

/-- The source `operator==` decides equality of the two key fields. -/
theorem sensorEntry_eqOp_iff (a b : SensorEntry) :
    SensorEntry.eqOp a b = true ↔ a = b := by
  cases a; cases b
  simp [SensorEntry.eqOp, SensorEntry.mk.injEq]

/-- Lookup after insert at the inserted key yields the inserted value. -/
theorem mapFind_mapInsert_self (m : HostStateSensorMap) (k : SensorEntry)
    (v : SensorInfo) : mapFind (mapInsert m k v) k = some v := by
  induction m with
  | nil => simp [mapInsert, mapFind, sensorEntry_eqOp_iff]
  | cons hd tl ih =>
    obtain ⟨k0, v0⟩ := hd
    by_cases h : SensorEntry.eqOp k0 k = true
    · simp [mapInsert, mapFind, h]
    · simp [mapInsert, mapFind, h, ih]

/-- Lookup after insert at a different key is unchanged. -/
theorem mapFind_mapInsert_ne (m : HostStateSensorMap) (k k2 : SensorEntry)
    (v : SensorInfo) (hne : k2 ≠ k) :
    mapFind (mapInsert m k v) k2 = mapFind m k2 := by
  induction m with
  | nil =>
    have : SensorEntry.eqOp k k2 = false := by
      rcases h : SensorEntry.eqOp k k2 with _ | _
      · rfl
      · exact absurd ((sensorEntry_eqOp_iff k k2).1 h).symm hne
    simp [mapInsert, mapFind, this]
  | cons hd tl ih =>
    obtain ⟨k0, v0⟩ := hd
    by_cases h : SensorEntry.eqOp k0 k = true
    · have hk0 : k0 = k := (sensorEntry_eqOp_iff k0 k).1 h
      subst hk0
      have : SensorEntry.eqOp k0 k2 = false := by
        rcases h2 : SensorEntry.eqOp k0 k2 with _ | _
        · rfl
        · exact absurd ((sensorEntry_eqOp_iff k0 k2).1 h2).symm hne
      simp [mapInsert, mapFind, h, this]
    · simp [mapInsert, mapFind, h, ih]

/-- Parsing PDRs none of which resolves to the key leaves the lookup at
that key unchanged. -/
theorem parseStateSensorPDRs_preserves (tl : TLPDRMap) (k : SensorEntry)
    (l : List StateSensorPDR) (h : ∀ q ∈ l, resolvedKey tl q ≠ some k)
    (st : SensorIndexState) :
    mapFind (parseStateSensorPDRs st l tl).sensorMap k = mapFind st.sensorMap k := by
  induction l generalizing st with
  | nil => rfl
  | cons q rest ih =>
    have hq := h q (List.mem_cons_self q rest)
    have hrest : ∀ q2 ∈ rest, resolvedKey tl q2 ≠ some k :=
      fun q2 hq2 => h q2 (List.mem_cons_of_mem q hq2)
    rcases hres : resolvedKey tl q with _ | key
    · simpa [parseStateSensorPDRs, hres] using ih hrest _
    · have hkne : k ≠ key := by
        intro he
        exact hq (by rw [hres, he])
      have := ih hrest { st with sensorMap := mapInsert st.sensorMap key q.info }
      simp only [parseStateSensorPDRs, List.foldl_cons, hres] at this ⊢
      rw [this, mapFind_mapInsert_ne st.sensorMap key k q.info hkne]

/-- Every member is bounded by the running maximum. -/
theorem le_foldrMax (l : List Nat) (x : Nat) (hx : x ∈ l) :
    x ≤ l.foldr max 0 := by
  induction l with
  | nil => cases hx
  | cons a t ih =>
    rcases List.mem_cons.1 hx with h | h
    · subst h; simp [List.foldr_cons]
    · have := ih h
      simp [List.foldr_cons]
      omega

/-- Running maximum distributes over append. -/
theorem foldrMax_append (l1 l2 : List Nat) :
    (l1 ++ l2).foldr max 0 = max (l1.foldr max 0) (l2.foldr max 0) := by
  induction l1 with
  | nil => simp
  | cons a t ih => simp [List.foldr_cons, ih]; omega

/-- Running maximum of a nonempty constant list is the constant. -/
theorem foldrMax_replicate (n v : Nat) (hn : n ≠ 0) :
    (List.replicate n v).foldr max 0 = v := by
  induction n with
  | zero => exact absurd rfl hn
  | succ m ih =>
    by_cases hm : m = 0
    · subst hm; simp [List.replicate]
    · simp [List.replicate_succ, List.foldr_cons, ih hm]

/-- Container IDs after a child-group insertion: the previous IDs plus
one copy of the fresh ID per inserted child. -/
theorem treeCids_addChildGroup (t : EntityAssociationTree) (parent : PldmEntity)
    (children : List PldmEntity) :
    treeCids (addChildGroup t parent children).tree
      = treeCids t ++ List.replicate children.length (treeMaxContainerId t + 1) := by
  simp only [treeCids, addChildGroup, List.map_append, List.map_map]
  congr 1
  induction children with
  | nil => rfl
  | cons c cs ih => simp [List.replicate_succ, ih]

/-- The fresh ID becomes the new maximum after a nonempty insertion. -/
theorem treeMax_addChildGroup (t : EntityAssociationTree) (parent : PldmEntity)
    (children : List PldmEntity) (h : children ≠ []) :
    treeMaxContainerId (addChildGroup t parent children).tree
      = treeMaxContainerId t + 1 := by
  have hlen : children.length ≠ 0 := by
    intro h0; exact h (List.length_eq_zero.1 h0)
  rw [treeMaxContainerId, treeCids_addChildGroup, foldrMax_append,
    foldrMax_replicate _ _ hlen]
  have : (treeCids t).foldr max 0 = treeMaxContainerId t := rfl
  omega

/-- Node count after a child-group insertion. -/
theorem nodes_addChildGroup (t : EntityAssociationTree) (parent : PldmEntity)
    (children : List PldmEntity) :
    (addChildGroup t parent children).tree.nodes.length
      = t.nodes.length + children.length := by
  simp [addChildGroup]

/-- The container ID a child-group insertion assigns. -/
theorem addChildGroup_cid (t : EntityAssociationTree) (parent : PldmEntity)
    (children : List PldmEntity) :
    (addChildGroup t parent children).cid = treeMaxContainerId t + 1 := rfl

/-- Maximum container ID after appending one node. -/
theorem treeMax_create_anchor (t : EntityAssociationTree) (anchor : PldmEntity)
    (e : List (PldmEntity × PldmEntity)) :
    treeMaxContainerId { nodes := t.nodes ++ [anchor], edges := e }
      = max (treeMaxContainerId t) anchor.containerId := by
  have h : treeCids { nodes := t.nodes ++ [anchor], edges := e }
      = treeCids t ++ [anchor.containerId] := by simp [treeCids]
  unfold treeMaxContainerId
  rw [h, foldrMax_append]
  simp only [List.foldr_cons, List.foldr_nil]
  omega

/-- Bounds of one merge step: the tree's maximum container ID never
decreases, every assigned ID lies strictly above the step's starting
maximum and at most at the resulting maximum, and the assigned IDs are
strictly increasing. -/
theorem mergeStep_cids (s : MergeState) (p : EntityAssociationPDR) :
    treeMaxContainerId s.tree
        ≤ treeMaxContainerId (mergeEntityAssociationsLog s p).1.tree ∧
    (∀ c ∈ (mergeEntityAssociationsLog s p).2.assignedCids,
        treeMaxContainerId s.tree < c ∧
          c ≤ treeMaxContainerId (mergeEntityAssociationsLog s p).1.tree) ∧
    List.Pairwise (fun a b => a < b)
      (mergeEntityAssociationsLog s p).2.assignedCids := by
  rcases hEmp : p.children.isEmpty with _ | _
  · have hne : p.children ≠ [] := by
      intro h0; rw [h0] at hEmp; simp at hEmp
    rcases hMhp : s.mergedHostParents with _ | _
    · rcases hTop : findTopLevelByType s.tree p.container.entityType with _ | anchor
      · -- firstCreated
        simp [mergeEntityAssociationsLog, hEmp, hMhp, hTop]
        rw [treeMax_addChildGroup _ _ _ hne, treeMax_create_anchor,
          addChildGroup_cid, treeMax_create_anchor]
        simp
      · -- firstLocated
        simp [mergeEntityAssociationsLog, hEmp, hMhp, hTop]
        rw [treeMax_addChildGroup _ _ _ hne, addChildGroup_cid]
        omega
    · rcases hFind : treeFind s.tree p.container with _ | parentNode
      · rcases hPar : parentsLookup s.parents p.container.entityType with _ | anchor
        · -- skipped
          simp [mergeEntityAssociationsLog, hEmp, hMhp, hFind, hPar]
        · -- fallbackAttach
          have hne1 : ([p.container] : List PldmEntity) ≠ [] := by simp
          simp [mergeEntityAssociationsLog, hEmp, hMhp, hFind, hPar]
          rw [treeMax_addChildGroup _ _ _ hne, treeMax_addChildGroup _ _ _ hne1,
            addChildGroup_cid, addChildGroup_cid,
            treeMax_addChildGroup _ _ _ hne1]
          omega
      · -- containerFound
        simp [mergeEntityAssociationsLog, hEmp, hMhp, hFind]
        rw [treeMax_addChildGroup _ _ _ hne, addChildGroup_cid]
        omega
  · -- empty child list
    have hemp : p.children = [] := by
      cases hc : p.children with
      | nil => rfl
      | cons a t => rw [hc] at hEmp; simp at hEmp
    simp [mergeEntityAssociationsLog, hemp]

/-- Unfolding of `mergeAllLog` on a cons. -/
theorem mergeAllLog_cons (s : MergeState) (p : EntityAssociationPDR)
    (rest : List EntityAssociationPDR) :
    mergeAllLog s (p :: rest)
      = ((mergeAllLog (mergeEntityAssociationsLog s p).1 rest).1,
         (mergeEntityAssociationsLog s p).2
           :: (mergeAllLog (mergeEntityAssociationsLog s p).1 rest).2) := rfl

/-- Unfolding of `assignedCidsOf` on a cons. -/
theorem assignedCidsOf_cons (l : MergeLog) (logs : List MergeLog) :
    assignedCidsOf (l :: logs) = l.assignedCids ++ assignedCidsOf logs := rfl

/-- Bounds of a whole merge cycle: the maximum container ID never
decreases, every assigned ID lies strictly above the cycle's starting
maximum and at most at the final maximum, and the assigned IDs are
strictly increasing in assignment order. -/
theorem mergeAll_cids (ps : List EntityAssociationPDR) (s : MergeState) :
    treeMaxContainerId s.tree ≤ treeMaxContainerId (mergeAllLog s ps).1.tree ∧
    (∀ c ∈ assignedCidsOf (mergeAllLog s ps).2,
        treeMaxContainerId s.tree < c ∧
          c ≤ treeMaxContainerId (mergeAllLog s ps).1.tree) ∧
    List.Pairwise (fun a b => a < b) (assignedCidsOf (mergeAllLog s ps).2) := by
  induction ps generalizing s with
  | nil => simp [mergeAllLog, assignedCidsOf]
  | cons p rest ih =>
    obtain ⟨smono, smem, spw⟩ := mergeStep_cids s p
    obtain ⟨rmono, rmem, rpw⟩ := ih (mergeEntityAssociationsLog s p).1
    rw [mergeAllLog_cons]
    refine ⟨le_trans smono rmono, ?_, ?_⟩
    · intro c hc
      rw [assignedCidsOf_cons] at hc
      rcases List.mem_append.1 hc with h | h
      · obtain ⟨h1, h2⟩ := smem c h
        exact ⟨h1, le_trans h2 rmono⟩
      · obtain ⟨h1, h2⟩ := rmem c h
        exact ⟨lt_of_le_of_lt smono h1, h2⟩
    · rw [assignedCidsOf_cons]
      refine (List.pairwise_append).2 ⟨spw, rpw, ?_⟩
      intro a ha b hb
      obtain ⟨_, ha2⟩ := smem a ha
      obtain ⟨hb1, _⟩ := rmem b hb
      omega

/-- Node count of one merge step matches the branch taken. -/
theorem mergeStep_count (s : MergeState) (p : EntityAssociationPDR) :
    (mergeEntityAssociationsLog s p).1.tree.nodes.length
      = s.tree.nodes.length
          + mergeAddedCount (mergeEntityAssociationsLog s p).2 := by
  rcases hEmp : p.children.isEmpty with _ | _
  · rcases hMhp : s.mergedHostParents with _ | _
    · rcases hTop : findTopLevelByType s.tree p.container.entityType with _ | anchor
      · simp [mergeEntityAssociationsLog, hEmp, hMhp, hTop, mergeAddedCount,
          addChildGroup]
      · simp [mergeEntityAssociationsLog, hEmp, hMhp, hTop, mergeAddedCount,
          addChildGroup]
    · rcases hFind : treeFind s.tree p.container with _ | parentNode
      · rcases hPar : parentsLookup s.parents p.container.entityType with _ | anchor
        · simp [mergeEntityAssociationsLog, hEmp, hMhp, hFind, hPar,
            mergeAddedCount]
        · simp [mergeEntityAssociationsLog, hEmp, hMhp, hFind, hPar,
            mergeAddedCount, addChildGroup]
      · simp [mergeEntityAssociationsLog, hEmp, hMhp, hFind, mergeAddedCount,
          addChildGroup]
  · have hemp : p.children = [] := by
      cases hc : p.children with
      | nil => rfl
      | cons a t => rw [hc] at hEmp; simp at hEmp
    simp [mergeEntityAssociationsLog, hemp, mergeAddedCount]

/-! ## Claim theorems -/

/-- C7: `SensorEntry::operator<` is a strict total order equal to the
lexicographic order on (terminusID, sensorID): it is transitive; entries
equal under `operator==` (which holds exactly when both fields coincide)
are incomparable in both directions; the order coincides with the
lexicographic comparison; and any two entries are related or equal
(totality). -/
theorem sensorEntry_strict_total_order (a b c : SensorEntry) :
    (SensorEntry.ltOp a b = true → SensorEntry.ltOp b c = true →
      SensorEntry.ltOp a c = true) ∧
    (SensorEntry.eqOp a b = true ↔
      a.terminusID = b.terminusID ∧ a.sensorID = b.sensorID) ∧
    (SensorEntry.eqOp a b = true →
      SensorEntry.ltOp a b = false ∧ SensorEntry.ltOp b a = false) ∧
    (SensorEntry.ltOp a b = true ↔
      (a.terminusID < b.terminusID ∨
        (a.terminusID = b.terminusID ∧ a.sensorID < b.sensorID))) ∧
    (SensorEntry.ltOp a b = true ∨ SensorEntry.eqOp a b = true ∨
      SensorEntry.ltOp b a = true) := by
  obtain ⟨at1, as1⟩ := a
  obtain ⟨bt1, bs1⟩ := b
  obtain ⟨ct1, cs1⟩ := c
  simp [SensorEntry.ltOp, SensorEntry.eqOp]
  omega

/-- C7 witness: transitivity applied at concrete entries. -/
theorem sensorEntry_strict_total_order_witness :
    SensorEntry.ltOp ⟨1, 5⟩ ⟨2, 3⟩ = true ∧
    SensorEntry.ltOp ⟨2, 3⟩ ⟨2, 4⟩ = true ∧
    SensorEntry.ltOp ⟨1, 5⟩ ⟨2, 4⟩ = true :=
  ⟨by decide, by decide,
    (sensorEntry_strict_total_order ⟨1, 5⟩ ⟨2, 3⟩ ⟨2, 4⟩).1 (by decide) (by decide)⟩

/-- C9: each unsupported `LicenseHandler` operation — `writeFromMemory`,
`readIntoMemory`, `write`, `fileAck`, `newFileAvailable` — returns
`PLDM_ERROR_UNSUPPORTED_PLDM_CMD` for all argument values, leaves the
handler state unchanged, and leaves the by-reference `length` arguments
unwritten. -/
theorem licenseHandler_unsupported_commands (h : LicenseHandler)
    (offset length address fileStatus newLen : Nat) (buffer : List Nat)
    (oem : Option Nat) :
    h.writeFromMemory offset length address oem
        = (PLDM_ERROR_UNSUPPORTED_PLDM_CMD, h) ∧
    h.readIntoMemory offset length address oem
        = (PLDM_ERROR_UNSUPPORTED_PLDM_CMD, length, h) ∧
    h.write buffer offset length oem
        = (PLDM_ERROR_UNSUPPORTED_PLDM_CMD, length, h) ∧
    h.fileAck fileStatus = (PLDM_ERROR_UNSUPPORTED_PLDM_CMD, h) ∧
    h.newFileAvailable newLen = (PLDM_ERROR_UNSUPPORTED_PLDM_CMD, h) :=
  ⟨rfl, rfl, rfl, rfl, rfl⟩

/-- C10: on a `SensorEntry` absent from `sensorMap`, `lookupSensorInfo`
(which is `return sensorMap.at(entry);`) throws `std::out_of_range` —
embedded as the `Except` error value — rather than returning an error
indication. -/
theorem lookupSensorInfo_absent_throws (s : SensorIndexState)
    (entry : SensorEntry) (habs : mapFind s.sensorMap entry = none) :
    lookupSensorInfo s entry = Except.error CppException.stdOutOfRange := by
  simp [lookupSensorInfo, mapAt, habs]

/-- C10 witness: a concrete absent entry. -/
theorem lookupSensorInfo_absent_throws_witness :
    mapFind ({ sensorMap := [(⟨1, 2⟩, 7)], published := [] } :
        SensorIndexState).sensorMap ⟨3, 4⟩ = none ∧
    lookupSensorInfo { sensorMap := [(⟨1, 2⟩, 7)], published := [] } ⟨3, 4⟩
        = Except.error CppException.stdOutOfRange :=
  ⟨by decide,
    lookupSensorInfo_absent_throws { sensorMap := [(⟨1, 2⟩, 7)], published := [] }
      ⟨3, 4⟩ (by decide)⟩

/-- C5: on a `SensorEntry` absent from the lookup index,
`handleStateSensorEvent` returns the explicit "sensor not found" PLDM
completion code and leaves the handler state untouched; being a total
Lean function returning a plain value, it throws no exception and cannot
terminate the process. -/
theorem handleStateSensorEvent_unknown_sensor_code (s : SensorIndexState)
    (entry : SensorEntry) (state : Nat)
    (habs : mapFind s.sensorMap entry = none) :
    (handleStateSensorEvent s entry state).1 = PLDM_PLATFORM_INVALID_SENSOR_ID ∧
    (handleStateSensorEvent s entry state).2 = s := by
  simp [handleStateSensorEvent, habs]

/-- C5 witness: a concrete absent entry. -/
theorem handleStateSensorEvent_unknown_sensor_code_witness :
    mapFind ({ sensorMap := [(⟨1, 2⟩, 7)], published := [(7, 1)] } :
        SensorIndexState).sensorMap ⟨9, 9⟩ = none ∧
    (handleStateSensorEvent { sensorMap := [(⟨1, 2⟩, 7)], published := [(7, 1)] }
        ⟨9, 9⟩ 3).1 = PLDM_PLATFORM_INVALID_SENSOR_ID :=
  ⟨by decide,
    (handleStateSensorEvent_unknown_sensor_code
      { sensorMap := [(⟨1, 2⟩, 7)], published := [(7, 1)] } ⟨9, 9⟩ 3 (by decide)).1⟩

/-- C4: a `fetchPDR` trigger arriving while a fetch cycle is in progress
(a GetPDR request outstanding or a batch being processed) is a complete
no-op: the state — including the outstanding-request count, the deferred
queue and the in-progress cycle's `pdrRecordHandles` — is returned
unchanged, so no second request is created and the record-handle queue is
neither replaced nor interleaved. -/
theorem fetchPDR_reentrant_noop (s : FetchState) (recordHandles : List Nat)
    (hbusy : s.phase = FetchPhase.awaitingGetPDRResponse ∨
      s.phase = FetchPhase.processingBatch) :
    fetchPDR s recordHandles = s := by
  unfold fetchPDR
  rw [if_pos hbusy]

/-- C4 witness: a concrete in-progress state. -/
theorem fetchPDR_reentrant_noop_witness :
    (({ phase := FetchPhase.awaitingGetPDRResponse, outstandingRequests := 1,
        pdrRecordHandles := [5, 6], changedRecordHandles := [2],
        deferred := [] } : FetchState).phase = FetchPhase.awaitingGetPDRResponse ∨
      ({ phase := FetchPhase.awaitingGetPDRResponse, outstandingRequests := 1,
         pdrRecordHandles := [5, 6], changedRecordHandles := [2],
         deferred := [] } : FetchState).phase = FetchPhase.processingBatch) ∧
    fetchPDR { phase := FetchPhase.awaitingGetPDRResponse, outstandingRequests := 1,
               pdrRecordHandles := [5, 6], changedRecordHandles := [2],
               deferred := [] } [9, 10]
      = { phase := FetchPhase.awaitingGetPDRResponse, outstandingRequests := 1,
          pdrRecordHandles := [5, 6], changedRecordHandles := [2],
          deferred := [] } :=
  ⟨Or.inl rfl,
    fetchPDR_reentrant_noop
      { phase := FetchPhase.awaitingGetPDRResponse, outstandingRequests := 1,
        pdrRecordHandles := [5, 6], changedRecordHandles := [2], deferred := [] }
      [9, 10] (Or.inl rfl)⟩

/-- C3: when `processHostPDRs` decodes `nextRecordHandle = 0` the cycle
transitions to MergeComplete and queues the change-notification step;
when it is nonzero the next fetch is only scheduled as a deferred
event-loop callback — the outstanding-request count drops to reflect the
retired request and no new request is issued inside `processHostPDRs`
itself — and the request is issued only when the event loop later runs
the deferred callback (`_processFetchPDREvent`, which calls
`getHostPDR`). -/
theorem processHostPDRs_terminate_or_defer (s : FetchState)
    (resp : GetPDRResponse) :
    (resp.nextRecordHandle = 0 →
      (processHostPDRs s resp).phase = FetchPhase.mergeComplete ∧
      (processHostPDRs s resp).deferred
        = s.deferred ++ [DeferredAction.pdrRepoChgEvent]) ∧
    (resp.nextRecordHandle ≠ 0 →
      (processHostPDRs s resp).deferred
        = s.deferred ++ [DeferredAction.fetchPDREvent resp.nextRecordHandle] ∧
      (processHostPDRs s resp).outstandingRequests
        = s.outstandingRequests - 1 ∧
      (processHostPDRs s resp).phase = FetchPhase.awaitingGetPDRResponse) ∧
    (s.deferred = [] → resp.nextRecordHandle ≠ 0 →
      runDeferred (processHostPDRs s resp)
        = getHostPDR { processHostPDRs s resp with deferred := [] }
            resp.nextRecordHandle) := by
  refine ⟨fun h0 => ?_, fun hn => ?_, fun hd hn => ?_⟩
  · simp [processHostPDRs, h0]
  · simp [processHostPDRs, hn]
  · simp [processHostPDRs, hn, hd, runDeferred, _processFetchPDREvent]

/-- C3 witness: both response shapes at a concrete state. -/
theorem processHostPDRs_terminate_or_defer_witness :
    ((processHostPDRs
        { phase := FetchPhase.awaitingGetPDRResponse, outstandingRequests := 1,
          pdrRecordHandles := [], changedRecordHandles := [1], deferred := [] }
        { recordHandle := 7, nextRecordHandle := 0 }).phase
      = FetchPhase.mergeComplete ∧
      (processHostPDRs
        { phase := FetchPhase.awaitingGetPDRResponse, outstandingRequests := 1,
          pdrRecordHandles := [], changedRecordHandles := [1], deferred := [] }
        { recordHandle := 7, nextRecordHandle := 0 }).deferred
      = [DeferredAction.pdrRepoChgEvent]) ∧
    (processHostPDRs
        { phase := FetchPhase.awaitingGetPDRResponse, outstandingRequests := 1,
          pdrRecordHandles := [], changedRecordHandles := [1], deferred := [] }
        { recordHandle := 7, nextRecordHandle := 8 }).deferred
      = [DeferredAction.fetchPDREvent 8] :=
  ⟨(processHostPDRs_terminate_or_defer
      { phase := FetchPhase.awaitingGetPDRResponse, outstandingRequests := 1,
        pdrRecordHandles := [], changedRecordHandles := [1], deferred := [] }
      { recordHandle := 7, nextRecordHandle := 0 }).1 rfl,
    ((processHostPDRs_terminate_or_defer
      { phase := FetchPhase.awaitingGetPDRResponse, outstandingRequests := 1,
        pdrRecordHandles := [], changedRecordHandles := [1], deferred := [] }
      { recordHandle := 7, nextRecordHandle := 8 }).2.1 (by decide)).1⟩

/-- C8: merging an entity-association PDR with an empty child list is a
no-op: the whole handler merge state — tree, `parents` map,
`mergedHostParents` flag and `entityAssociations` map — is returned
unchanged. -/
theorem mergeEntityAssociations_empty_children_noop (s : MergeState)
    (p : EntityAssociationPDR) (hemp : p.children = []) :
    mergeEntityAssociations s p = s := by
  simp [mergeEntityAssociations, mergeEntityAssociationsLog, hemp]

/-- C8 witness: a concrete empty-child-list PDR. -/
theorem mergeEntityAssociations_empty_children_noop_witness :
    ({ associationType := 1, container := ⟨2, 0, 3⟩, children := [] } :
        EntityAssociationPDR).children = [] ∧
    mergeEntityAssociations
        { tree := { nodes := [⟨1, 0, 0⟩], edges := [] }, parents := [],
          mergedHostParents := false, entityAssociations := [] }
        { associationType := 1, container := ⟨2, 0, 3⟩, children := [] }
      = { tree := { nodes := [⟨1, 0, 0⟩], edges := [] }, parents := [],
          mergedHostParents := false, entityAssociations := [] } :=
  ⟨rfl,
    mergeEntityAssociations_empty_children_noop
      { tree := { nodes := [⟨1, 0, 0⟩], edges := [] }, parents := [],
        mergedHostParents := false, entityAssociations := [] }
      { associationType := 1, container := ⟨2, 0, 3⟩, children := [] } rfl⟩

/-- C6: a `SensorEntry` inserted by `parseStateSensorPDRs` whose terminus
handle resolves through the terminus-locator map, and which is not
overwritten by a later PDR resolving to the same key, is retrievable via
`lookupSensorInfo` with the very `SensorInfo` that was inserted. -/
theorem parseStateSensorPDRs_lookup_roundtrip (s : SensorIndexState)
    (tl : TLPDRMap) (l1 l2 : List StateSensorPDR) (p : StateSensorPDR)
    (tid : Nat) (hres : tlLookup tl p.terminusHandle = some tid)
    (hlast : ∀ q ∈ l2, resolvedKey tl q ≠ some ⟨tid, p.sensorID⟩) :
    lookupSensorInfo (parseStateSensorPDRs s (l1 ++ p :: l2) tl)
        ⟨tid, p.sensorID⟩
      = Except.ok p.info := by
  have hkey : resolvedKey tl p = some ⟨tid, p.sensorID⟩ := by
    simp [resolvedKey, hres]
  have hfold : parseStateSensorPDRs s (l1 ++ p :: l2) tl
      = parseStateSensorPDRs
          { parseStateSensorPDRs s l1 tl with
              sensorMap :=
                mapInsert (parseStateSensorPDRs s l1 tl).sensorMap
                  ⟨tid, p.sensorID⟩ p.info }
          l2 tl := by
    simp [parseStateSensorPDRs, List.foldl_append, hkey]
  rw [hfold, lookupSensorInfo, mapAt,
    parseStateSensorPDRs_preserves tl ⟨tid, p.sensorID⟩ l2 hlast _,
    mapFind_mapInsert_self]

/-- C6 witness: a single resolvable PDR round-trips. -/
theorem parseStateSensorPDRs_lookup_roundtrip_witness :
    tlLookup [(10, 1)] (⟨10, 2, 42⟩ : StateSensorPDR).terminusHandle = some 1 ∧
    lookupSensorInfo
        (parseStateSensorPDRs { sensorMap := [], published := [] }
          ([] ++ (⟨10, 2, 42⟩ : StateSensorPDR) :: []) [(10, 1)])
        ⟨1, (⟨10, 2, 42⟩ : StateSensorPDR).sensorID⟩
      = Except.ok (⟨10, 2, 42⟩ : StateSensorPDR).info :=
  ⟨by decide,
    parseStateSensorPDRs_lookup_roundtrip { sensorMap := [], published := [] }
      [(10, 1)] [] [] ⟨10, 2, 42⟩ 1 (by decide) (by intro q hq; cases hq)⟩

/-- C1: over any one fetch cycle, every container ID assigned to a newly
inserted child group by `mergeEntityAssociations` is distinct from every
container ID present in the BMC tree before the cycle's first merge began
(the per-call trees only grow, so in particular from every ID present
before each individual call), and the IDs assigned within the cycle are
pairwise distinct. -/
theorem mergeEntityAssociations_assigned_cids_fresh (s : MergeState)
    (ps : List EntityAssociationPDR) :
    (∀ c ∈ assignedCidsOf (mergeAllLog s ps).2, c ∉ treeCids s.tree) ∧
    List.Pairwise (fun a b => a ≠ b) (assignedCidsOf (mergeAllLog s ps).2) := by
  obtain ⟨-, hmem, hpw⟩ := mergeAll_cids ps s
  refine ⟨?_, hpw.imp (fun h => Nat.ne_of_lt h)⟩
  intro c hc hin
  have h1 := (hmem c hc).1
  have h2 := le_foldrMax (treeCids s.tree) c hin
  have h3 : (treeCids s.tree).foldr max 0 = treeMaxContainerId s.tree := rfl
  omega

/-- C1 witness: a concrete merge whose assigned container ID avoids the
pre-merge tree. -/
theorem mergeEntityAssociations_assigned_cids_fresh_witness :
    1 ∈ assignedCidsOf
        (mergeAllLog
          ⟨⟨[⟨5, 0, 0⟩], []⟩, [], false, []⟩
          [⟨0, ⟨5, 0, 0⟩, [⟨6, 1, 9⟩]⟩]).2 ∧
    1 ∉ treeCids (⟨⟨[⟨5, 0, 0⟩], []⟩, [], false, []⟩ : MergeState).tree :=
  ⟨by decide,
    (mergeEntityAssociations_assigned_cids_fresh
      ⟨⟨[⟨5, 0, 0⟩], []⟩, [], false, []⟩
      [⟨0, ⟨5, 0, 0⟩, [⟨6, 1, 9⟩]⟩]).1 1 (by decide)⟩

/-- C2 counterexample: with the established top-level parent recorded for
entity type 2 and a PDR whose container (type 2) is absent from the tree,
the merge takes the fallback and inserts the container node as well as
its one child, so the tree grows by two entities while the claim's sum —
child-list lengths over PDRs whose container resolved to a parent in the
tree — is zero: the claimed equality fails. -/
theorem mergeAll_entity_count_claim_counterexample :
    ¬ ((mergeAllLog (⟨⟨[⟨1, 0, 0⟩], []⟩, [(2, ⟨1, 0, 0⟩)], true, []⟩ : MergeState)
          [⟨0, ⟨2, 0, 5⟩, [⟨3, 0, 7⟩]⟩]).1.tree.nodes.length
        = (⟨⟨[⟨1, 0, 0⟩], []⟩, [(2, ⟨1, 0, 0⟩)], true, []⟩ :
              MergeState).tree.nodes.length
            + claimResolvedSum
                (mergeAllLog
                  (⟨⟨[⟨1, 0, 0⟩], []⟩, [(2, ⟨1, 0, 0⟩)], true, []⟩ : MergeState)
                  [⟨0, ⟨2, 0, 5⟩, [⟨3, 0, 7⟩]⟩]).2) := by decide

/-- C2 (amended): after the merges of one fetch cycle, the entity count
equals the pre-merge count plus, per merged PDR, its child-list length
when its container resolved to a parent already in the tree (directly or
as the located first-PDR anchor), its child-list length plus one when the
fallback inserted the container itself under the established top-level
parent or the first PDR created its top-level anchor, and zero for
skipped or empty-child-list PDRs. -/
theorem mergeAll_entity_count_amended (s : MergeState)
    (ps : List EntityAssociationPDR) :
    (mergeAllLog s ps).1.tree.nodes.length
      = s.tree.nodes.length
          + ((mergeAllLog s ps).2.map mergeAddedCount).sum := by
  induction ps generalizing s with
  | nil => simp [mergeAllLog]
  | cons p rest ih =>
    rw [mergeAllLog_cons]
    simp only [List.map_cons, List.sum_cons]
    have h1 := ih (mergeEntityAssociationsLog s p).1
    have h2 := mergeStep_count s p
    omega

end Pldm
